import Mathlib

/-!
MAVSDK: FTP server file registry, system-test file helpers, `mission_speed` input loop.

A shallow embedding of

* `src/mavsdk/plugins/ftp_server/ftp_server_impl.{h,cpp}` (`FtpServerImpl::provide_file`),
* `src/system_tests/fs_helpers.cpp` (`create_temp_file`, `are_files_identical`),
* `examples/mission_speed/mission_speed.cpp` (the speed-input loop of `main`),

and of the transfer engine that the system test `ftp_upload_file.cpp` drives,
followed by the properties established about them.  Bytes and `std::size_t`
values are natural numbers, no counter of the embedded code wraps, and a file
system maps paths to regular files and directories.
-/

set_option autoImplicit false

namespace MAVSDK

/-! ## `FtpServerImpl` -/

namespace FtpServer

/-- Modelled from the spec: the declaration of `FtpServer::Result` lives in
`plugins/ftp_server/ftp_server.h`, which is not among the sources.  The
constructors are the client-visible result kinds of the taxonomy in §7 of
the specification; `provide_file` itself only mentions `Success` and
`Duplicate`. -/
inductive Result where
  | Success
  | Next
  | Timeout
  | Busy
  | FileDoesNotExist
  | FileExists
  | FileProtected
  | InvalidParameter
  | Unsupported
  | ProtocolError
  | Cancelled
  | Duplicate
  deriving DecidableEq, Repr

end FtpServer

/-- The data members of `FtpServerImpl` that `provide_file` touches.  The mutex
`_saved_paths_mutex` only serialises callers; under it `provide_file` is a
sequential state transformer on `_saved_paths`. -/
structure FtpServerImpl where
  _saved_paths : List String
  deriving DecidableEq, Repr

/-- The algorithm `std::find_if(first, last, pred)`: the position of the first element that
satisfies `pred`; the position `last` (here: the length of the range) when
there is none. -/
def find_if (pred : String → Bool) : List String → Nat
  | [] => 0
  | item :: rest => if pred item then 0 else find_if pred rest + 1

namespace FtpServerImpl

/-- The state right after the constructor: `_saved_paths{}`. -/
def new : FtpServerImpl := ⟨[]⟩

/-- The member function `FtpServerImpl::provide_file`: returns the result and
the successor state. -/
def provide_file (self : FtpServerImpl) (path : String) :
    FtpServer.Result × FtpServerImpl :=
  let found : Bool :=
    find_if (fun item => item == path) self._saved_paths != self._saved_paths.length
  if found then
    (FtpServer.Result.Duplicate, self)
  else
    (FtpServer.Result.Success, ⟨self._saved_paths ++ [path]⟩)

/-- A finite sequence of `provide_file` calls, one per element of `paths`, in
order: the list of results returned and the final state. -/
def provide_files (self : FtpServerImpl) :
    List String → List FtpServer.Result × FtpServerImpl
  | [] => ([], self)
  | path :: rest =>
    let r := self.provide_file path
    let rs := provide_files r.2 rest
    (r.1 :: rs.1, rs.2)

end FtpServerImpl

/-- The specification's reading of the final registry: the sequence of paths
with every occurrence of a string after its first one removed. -/
def first_occurrences : List String → List String
  | [] => []
  | p :: rest => p :: (first_occurrences rest).filter (fun q => q != p)

/-! ## `fs_helpers.cpp` -/

/-- A `std::filesystem::path` by its components; an absolute path starts with
the component `"/"`. -/
abbrev Path := List String

/-- The member `path::parent_path()`: the path without its last component;
the root is its own parent and a bare file name has the empty parent. -/
def parent_path (path : Path) : Path :=
  if path = ["/"] then path else path.dropLast

/-- An entry of the file system: a regular file with the bytes the device
delivers and whether the device then reports a read error instead of the end
of the file, or a directory. -/
inductive Node where
  | file (bytes : List Nat) (read_error : Bool)
  | directory
  deriving DecidableEq, Repr

/-- The file system the helpers run on: the entry at each path, whether the
entry at a path may be opened for reading, whether an entry may be created or
written at a path, and the number of bytes the device can still take. -/
structure FileSystem where
  node : Path → Option Node
  readable : Path → Bool
  writable : Path → Bool
  free_space : Nat

/-- The exceptions that leave `create_temp_file`. -/
inductive Exception where
  | length_error
  | bad_alloc
  | filesystem_error
  deriving DecidableEq, Repr

/-- The limits of the allocator: `std::vector<uint8_t>::max_size()` and the
number of bytes an allocation can obtain. -/
structure Runtime where
  max_size : Nat
  memory : Nat

namespace FileSystem

/-- What an input stream opened on `path` reads from: the bytes the device
delivers and whether a read error follows them.  A directory opens and every
read of it is an error; a missing or unreadable entry does not open. -/
def source (fs : FileSystem) (path : Path) : Option (List Nat × Bool) :=
  if fs.readable path then
    match fs.node path with
    | some (Node.file bytes read_error) => some (bytes, read_error)
    | some Node.directory => some ([], true)
    | none => none
  else
    none

end FileSystem

/-- A `std::ifstream` in binary mode: the bytes not yet extracted, whether the
device reports an error after them, the state bits `eofbit`, `failbit` and
`badbit`, and the count of the last unformatted read. -/
structure IfStream where
  rest : List Nat
  read_error : Bool
  eofbit : Bool
  failbit : Bool
  badbit : Bool
  gcount : Nat
  deriving DecidableEq, Repr

namespace IfStream

/-- The constructor `std::ifstream file(path, std::ios::binary)`: an entry that
cannot be opened leaves the stream with `failbit` set. -/
def mk_open (fs : FileSystem) (path : Path) : IfStream :=
  match fs.source path with
  | some (bytes, read_error) => ⟨bytes, read_error, false, false, false, 0⟩
  | none => ⟨[], false, false, true, false, 0⟩

end IfStream

/-- The call `data.reserve(len)`: throws `std::length_error` above
`max_size()` and `std::bad_alloc` when the memory cannot be obtained. -/
def reserve (rt : Runtime) (len : Nat) : Except Exception Unit :=
  if rt.max_size < len then
    Except.error Exception.length_error
  else if rt.memory < len then
    Except.error Exception.bad_alloc
  else
    Except.ok ()

/-- The loop `for (size_t i = 0; i < len; ++i) data.push_back(static_cast<uint8_t>(i % 256));`
of `create_temp_file`, entered with counter `i` and vector `data`.  The counter
never wraps: `i < len` and `len` is a `size_t`. -/
def create_temp_file_fill (len : Nat) (i : Nat) (data : List Nat) : List Nat :=
  if i < len then
    create_temp_file_fill len (i + 1) (data ++ [(i % 256) % 2 ^ 8])
  else
    data
termination_by len - i

/-- The directories that lead to `path`, outermost first, `path` itself last. -/
def ancestors : Path → List Path
  | [] => []
  | c :: rest => [c] :: (ancestors rest).map (fun d => c :: d)

/-- The walk of `create_directories` over the directories that lead to the
target: an existing directory is kept, a missing one is created when the
file system permits it, and a regular file in the way or a refused creation
throws `filesystem_error`. -/
def create_directories_walk (fs : FileSystem) : List Path → Except Exception FileSystem
  | [] => Except.ok fs
  | d :: later =>
    match fs.node d with
    | some Node.directory => create_directories_walk fs later
    | some (Node.file _ _) => Except.error Exception.filesystem_error
    | none =>
      if fs.writable d then
        create_directories_walk
          { fs with node := fun p => if p = d then some Node.directory else fs.node p } later
      else
        Except.error Exception.filesystem_error

/-- The throwing overload `create_directories(p)`: the empty path is an
invalid argument. -/
def create_directories (fs : FileSystem) (p : Path) : Except Exception FileSystem :=
  if p = [] then
    Except.error Exception.filesystem_error
  else
    create_directories_walk fs (ancestors p)

/-- A `std::ofstream`: whether it is open, the path it writes to, and its
`badbit`. -/
structure OfStream where
  is_open : Bool
  path : Path
  badbit : Bool
  deriving DecidableEq, Repr

namespace OfStream

/-- The call `tempfile.open(path, std::ios::out | std::ios::binary)`: truncates
a regular file that may be written, creates a missing one when its directory
exists and the creation is permitted, and fails otherwise, as on a directory. -/
def mk_open (fs : FileSystem) (path : Path) : OfStream × FileSystem :=
  let truncated : FileSystem :=
    { fs with node := fun p => if p = path then some (Node.file [] false) else fs.node p }
  match fs.node path with
  | some Node.directory => (⟨false, path, false⟩, fs)
  | some (Node.file _ _) =>
    if fs.writable path then (⟨true, path, false⟩, truncated) else (⟨false, path, false⟩, fs)
  | none =>
    if fs.writable path &&
        (parent_path path == [] || fs.node (parent_path path) == some Node.directory) then
      (⟨true, path, false⟩, truncated)
    else
      (⟨false, path, false⟩, fs)

/-- The call `tempfile.write(data, size)`: the bytes the device still takes
are appended to the file and a short write sets `badbit`; nothing happens on
a stream that is not open. -/
def write (s : OfStream) (fs : FileSystem) (data : List Nat) : OfStream × FileSystem :=
  if s.is_open then
    let old : List Nat :=
      match fs.node s.path with
      | some (Node.file bytes _) => bytes
      | _ => []
    let written := data.take fs.free_space
    ({ s with badbit := decide (written.length < data.length) },
      { fs with
          node := fun p =>
            if p = s.path then some (Node.file (old ++ written) false) else fs.node p
          free_space := fs.free_space - written.length })
  else
    (s, fs)

/-- The call `tempfile.close()`. -/
def close (s : OfStream) : OfStream := { s with is_open := false }

end OfStream

/-- The helper `create_temp_file(path, len)`: the exception that leaves it, or
the returned flag and the file system afterwards. -/
def create_temp_file (rt : Runtime) (fs : FileSystem) (path : Path) (len : Nat) :
    Except Exception (Bool × FileSystem) :=
  match reserve rt len with
  | Except.error e => Except.error e
  | Except.ok () =>
    let data := create_temp_file_fill len 0 []
    let parent := parent_path path
    match create_directories fs parent with
    | Except.error e => Except.error e
    | Except.ok fs =>
      let opened := OfStream.mk_open fs path
      let written := opened.1.write opened.2 data
      let _closed := written.1.close
      Except.ok (true, written.2)

/-! ## `mission_speed.cpp`: the speed-input loop of `main` -/

/-- What `std::stof(input)` does: a value, or one of its two exceptions. -/
inductive StofResult (α : Type) where
  | value (speed_m_s : α)
  | invalid_argument
  | out_of_range

/-- Where control is once the given input tokens have been consumed. -/
inductive LoopExit where
  /-- Still inside `while (true)`, about to execute `std::cin >> input`. -/
  | in_loop
  /-- Control has left `main` through `return` with this exit code. -/
  | returned (code : Int)
  /-- An exception left `main` (`std::out_of_range` is not caught). -/
  | terminated
  deriving DecidableEq, Repr

/-- The loop `while (true) { std::string input; std::cin >> input; ... }` of
`main`, run on the whitespace-separated tokens that `std::cin >> input`
yields one per iteration.  `stof` is `std::stof` and `set_speed_to speed`
tells whether sending the speed command succeeds.  Returns the speeds for
which `set_speed_to` was called, in order, and where control is after the
last token. -/
def speed_input_loop {α : Type} (stof : String → StofResult α) (set_speed_to : α → Bool) :
    List String → List α × LoopExit
  | [] => ([], LoopExit.in_loop)
  | input :: later =>
    if input = "\r" then
      speed_input_loop stof set_speed_to later
    else if input = "q" then
      speed_input_loop stof set_speed_to later
    else
      match stof input with
      | StofResult.value speed_m_s =>
        if !set_speed_to speed_m_s then
          ([speed_m_s], LoopExit.returned 1)
        else
          let r := speed_input_loop stof set_speed_to later
          (speed_m_s :: r.1, r.2)
      | StofResult.invalid_argument =>
        speed_input_loop stof set_speed_to later
      | StofResult.out_of_range => ([], LoopExit.terminated)

/-- A sample `std::stof`: the token `"5"` converts to the speed 5 and every
other token raises `std::invalid_argument`. -/
def stof_sample (input : String) : StofResult Nat :=
  if input = "5" then StofResult.value 5 else StofResult.invalid_argument

/-- A sample file system: the directories of the system test with the file to
upload and its uploaded copy, an empty file, and a file whose device fails
after three bytes; everything may be read and written. -/
def fs_sample : FileSystem where
  node := fun p =>
    if p = ["/"] ∨ p = ["/", "tmp"] ∨ p = ["/", "tmp", "to_upload"] ∨
        p = ["/", "tmp", "provided"] then some Node.directory
    else if p = ["/", "tmp", "to_upload", "data.bin"] then some (Node.file [0, 1, 2] false)
    else if p = ["/", "tmp", "provided", "data.bin"] then some (Node.file [0, 1, 2] false)
    else if p = ["/", "tmp", "empty.bin"] then some (Node.file [] false)
    else if p = ["/", "tmp", "broken.bin"] then some (Node.file [7, 8, 9] true)
    else none
  readable := fun _ => true
  writable := fun _ => true
  free_space := 1000

/-- The sample file system mounted read-only. -/
def fs_read_only : FileSystem := { fs_sample with writable := fun _ => false }

/-- A sample allocator: `max_size()` is `2 ^ 63 - 1` and a mebibyte is free. -/
def rt_sample : Runtime := ⟨2 ^ 63 - 1, 2 ^ 20⟩

/-! ## The transfer engine behind `Ftp::upload_async`

The client and server of the transfer protocol are not among the sources;
only the system test that drives them is.  The definitions of this section
follow the specification (§3, §4.2, §4.3, §4.5, §4.6, §7). -/

namespace Ftp

/-- Modelled from the spec: the declaration of `Ftp::Result` is not among the
sources; §7 gives one taxonomy of result kinds for client and server. -/
abbrev Result := FtpServer.Result

/-- Modelled from the spec: the opcodes of a transfer frame (§3); the codec is
not among the sources. -/
inductive Opcode where
  | None
  | TerminateSession
  | ResetSessions
  | ListDirectory
  | OpenFileRO
  | ReadFile
  | CreateFile
  | WriteFile
  | RemoveFile
  | CreateDirectory
  | RemoveDirectory
  | OpenFileWO
  | TruncateFile
  | Rename
  | CalcFileCRC32
  | BurstReadFile
  | Ack
  | Nak
  deriving DecidableEq, Repr

/-- Modelled from the spec: a request frame (§3) as the server sees it after
decoding.  The payload is a protocol path, given by its components, or file
content, and the frame's size field is the length of that payload. -/
structure Frame where
  seq_number : Nat
  session_id : Nat
  opcode : Opcode
  offset : Nat
  path : List String
  data : List Nat

/-- Modelled from the spec: the reply frame, `Ack` carrying the session id or
`Nak` carrying the failure reason (§3, glossary). -/
inductive Reply where
  | Ack (session_id : Nat)
  | Nak (reason : Result)
  deriving DecidableEq, Repr

/-- Modelled from the spec: the server side (§3 "Filesystem Jail Root", §4.5).
The jail root is `none` until `set_root_directory` is called; `dirs` and
`files` are the directories and regular files of the server's disk by
absolute path; `writable` tells which directories permit write access;
`session` is the resource of the one active session (§1: a single active
session per link peer). -/
structure Server where
  root : Option (List String)
  dirs : List String → Bool
  writable : List String → Bool
  files : List String → Option (List Nat)
  session : Option (List String)

namespace Server

/-- Modelled from the spec: `set_root_directory(path)` of the server API (§6). -/
def set_root_directory (srv : Server) (path : List String) : Server :=
  { srv with root := some path }

/-- Modelled from the spec: resolution of a protocol path against the jail
root (§4.5, §8 "Jail containment").  An unconfigured root makes every path
resolve outside any permitted tree; a path containing `..` is rejected; the
components `.` and the empty component stand for the directory itself. -/
def resolve (srv : Server) (path : List String) : Option (List String) :=
  match srv.root with
  | none => none
  | some root =>
    if ".." ∈ path then none
    else some (root ++ path.filter (fun c => c != "." && c != ""))

/-- Modelled from the spec: `CreateFile` and `OpenFileWO` after the path
resolved to `target` (§4.5, §4.6).  While a session is active the request
is rejected as busy (§3).  For an upload the remote directory must already
exist and permit write access, and the lack of either surfaces as
`FileDoesNotExist`, so no parent directory is left to create.  The file is
created empty and becomes the resource of the session, whose id is 1. -/
def create_file (srv : Server) (target : List String) : Server × Reply :=
  if srv.session.isSome then
    (srv, Reply.Nak FtpServer.Result.Busy)
  else if !srv.dirs target.dropLast || !srv.writable target.dropLast then
    (srv, Reply.Nak FtpServer.Result.FileDoesNotExist)
  else
    ({ srv with
        files := fun f => if f = target then some [] else srv.files f
        session := some target },
      Reply.Ack 1)

/-- Modelled from the spec: `WriteFile` (§4.3): the chunk is persisted at the
given offset of the session's file before the reply is sent. -/
def write_file (srv : Server) (session_id offset : Nat) (data : List Nat) :
    Server × Reply :=
  match srv.session with
  | none => (srv, Reply.Nak FtpServer.Result.InvalidParameter)
  | some target =>
    match srv.files target with
    | none => (srv, Reply.Nak FtpServer.Result.FileDoesNotExist)
    | some old =>
      if session_id ≠ 1 ∨ old.length < offset then
        (srv, Reply.Nak FtpServer.Result.InvalidParameter)
      else
        ({ srv with
            files := fun f =>
              if f = target then
                some (old.take offset ++ data ++ old.drop (offset + data.length))
              else srv.files f },
          Reply.Ack session_id)

/-- Modelled from the spec: `TerminateSession` (§3): the session ends. -/
def terminate_session (srv : Server) (session_id : Nat) : Server × Reply :=
  ({ srv with session := none }, Reply.Ack session_id)

/-- Modelled from the spec: dispatch of a decoded request (§2, §4.5).  For
the opcodes that name a path the first step is resolution, and a path that
does not resolve is answered `Nak(FileDoesNotExist)`.  What the opcodes other
than `CreateFile` and `OpenFileWO` do once the path resolved is not fixed
here: it is the parameter `serve`. -/
def handle (serve : Server → Opcode → List String → Server × Reply)
    (srv : Server) (frame : Frame) : Server × Reply :=
  match frame.opcode with
  | Opcode.WriteFile => srv.write_file frame.session_id frame.offset frame.data
  | Opcode.TerminateSession => srv.terminate_session frame.session_id
  | Opcode.ListDirectory | Opcode.OpenFileRO | Opcode.OpenFileWO | Opcode.CreateFile
  | Opcode.RemoveFile | Opcode.CreateDirectory | Opcode.RemoveDirectory | Opcode.Rename
  | Opcode.CalcFileCRC32 =>
    match srv.resolve frame.path with
    | some target =>
      if frame.opcode = Opcode.CreateFile ∨ frame.opcode = Opcode.OpenFileWO then
        srv.create_file target
      else
        serve srv frame.opcode target
    | none => (srv, Reply.Nak FtpServer.Result.FileDoesNotExist)
  | _ => (srv, Reply.Nak FtpServer.Result.Unsupported)

end Server

/-- Modelled from the spec: the states of the client session (§4.2). -/
inductive State where
  | Idle
  | Opening
  | Transferring
  | Closing
  | Completed
  | Failed
  deriving DecidableEq, Repr

/-- Modelled from the spec: the client-side record of the operation in flight
(§3 "Transfer Session"): the sequence number of the outstanding frame (16
bits), the session id, the next offset as it goes into the 32-bit offset
field of a frame, the bytes transferred and the total bytes. -/
structure Session where
  state : State
  has_data_phase : Bool
  seq_number : Nat
  session_id : Nat
  offset : Nat
  bytes_transferred : Nat
  total : Nat
  deriving DecidableEq, Repr

namespace Session

/-- Modelled from the spec: the transition taken on the reply to the
outstanding request, and the statuses passed to the callback (§4.2, §7).
An `Ack` while `Opening` leads to `Transferring` or, for an operation without
data phase, to `Closing`; a `Nak` leads to `Failed` with the reason as the
terminal status; an `Ack` while `Transferring` advances the offset, an
unsigned 32-bit value, and the bytes transferred by the size of the
acknowledged chunk and reports `Next`; the reply while `Closing` completes
the operation with `Success`, also when terminating failed. -/
def on_reply (s : Session) (chunk_size : Nat) (reply : Reply) : Session × List Result :=
  match s.state, reply with
  | State.Opening, Reply.Ack id =>
    if s.has_data_phase then
      ({ s with state := State.Transferring, session_id := id,
                seq_number := (s.seq_number + 1) % 2 ^ 16 }, [])
    else
      ({ s with state := State.Closing, seq_number := (s.seq_number + 1) % 2 ^ 16 }, [])
  | State.Opening, Reply.Nak reason => ({ s with state := State.Failed }, [reason])
  | State.Transferring, Reply.Ack _ =>
    ({ s with offset := (s.offset + chunk_size) % 2 ^ 32,
              bytes_transferred := s.bytes_transferred + chunk_size,
              seq_number := (s.seq_number + 1) % 2 ^ 16 },
      [FtpServer.Result.Next])
  | State.Transferring, Reply.Nak reason => ({ s with state := State.Failed }, [reason])
  | State.Closing, _ => ({ s with state := State.Completed }, [FtpServer.Result.Success])
  | _, _ => (s, [])

/-- Modelled from the spec: `Transferring` goes to `Closing` once the total
size is reached (§4.2). -/
def finish_transfer (s : Session) : Session :=
  if s.state = State.Transferring ∧ s.total ≤ s.bytes_transferred then
    { s with state := State.Closing }
  else
    s

end Session

/-- Modelled from the spec: the capacity of the payload of one frame (§3). -/
def max_payload : Nat := 239

/-- Modelled from the spec: the data phase of an upload on a link that loses
nothing (§4.3): one `WriteFile` request per chunk of at most `max_payload`
bytes, each sent after the reply to the one before, as long as the session is
`Transferring`.  Returns the server, the session and the callback statuses. -/
def write_chunks (serve : Server → Opcode → List String → Server × Reply)
    (srv : Server) (s : Session) (remaining : List Nat) : Server × Session × List Result :=
  if remaining.length = 0 ∨ s.state ≠ State.Transferring then
    (srv, s, [])
  else
    let chunk := remaining.take max_payload
    let r := srv.handle serve ⟨s.seq_number, s.session_id, Opcode.WriteFile, s.offset, [], chunk⟩
    let t := s.on_reply chunk.length r.2
    let rest := write_chunks serve r.1 t.1 (remaining.drop max_payload)
    (rest.1, rest.2.1, t.2 ++ rest.2.2)
termination_by remaining.length
decreasing_by
  rename_i h
  simp only [List.length_drop, max_payload]
  omega

/-- Modelled from the spec: `upload(local_path, remote_dir)` of the client
coordinator on a link that loses nothing (§4.2, §4.6): the file with content
`content` and name `file_name` is sent to `remote_dir`.  `Idle` goes to
`Opening` with a `CreateFile` request; after the data phase the session is
closed with `TerminateSession`.  Every reply answers the outstanding request,
so no frame is stale.  Returns the statuses the callback receives, in order,
and the server afterwards. -/
def upload (serve : Server → Opcode → List String → Server × Reply)
    (srv : Server) (content : List Nat) (file_name : String) (remote_dir : List String) :
    List Result × Server :=
  let s0 : Session := ⟨State.Opening, true, 0, 0, 0, 0, content.length⟩
  let r := srv.handle serve ⟨s0.seq_number, 0, Opcode.CreateFile, 0, remote_dir ++ [file_name], []⟩
  let opened := s0.on_reply 0 r.2
  let w := write_chunks serve r.1 opened.1 content
  let s1 := w.2.1.finish_transfer
  if s1.state = State.Closing then
    let c := w.1.handle serve ⟨s1.seq_number, s1.session_id, Opcode.TerminateSession, 0, [], []⟩
    let closed := s1.on_reply 0 c.2
    (opened.2 ++ w.2.2 ++ closed.2, c.1)
  else
    (opened.2 ++ w.2.2, w.1)

/-- A sample server: no root configured, no sessions, the directory
`/tmp/provided` exists, is empty and permits write access. -/
def server_sample : Server where
  root := none
  dirs := fun d => decide (d = ["tmp", "provided"])
  writable := fun _ => true
  files := fun _ => none
  session := none

/-- The sample server with a disk that permits no write access. -/
def server_read_only : Server := { server_sample with writable := fun _ => false }

/-- The sample server while another session is active. -/
def server_busy : Server := { server_sample with session := some ["tmp", "provided", "other.bin"] }

/-- A sample `serve`: every other request is answered `Ack`. -/
def serve_sample : Server → Opcode → List String → Server × Reply :=
  fun srv _ _ => (srv, Reply.Ack 0)

end Ftp

/-! ## Properties of the file registry -/

theorem find_if_le_length (pred : String → Bool) (l : List String) :
    find_if pred l ≤ l.length := by
  induction l with
  | nil => simp [find_if]
  | cons item rest ih =>
    simp only [find_if, List.length_cons]
    split <;> omega

theorem find_if_eq_length_iff (pred : String → Bool) (l : List String) :
    find_if pred l = l.length ↔ ∀ item ∈ l, pred item = false := by
  induction l with
  | nil => simp [find_if]
  | cons item rest ih =>
    simp only [find_if, List.length_cons, List.mem_cons, forall_eq_or_imp]
    by_cases h : pred item = true
    · simp [h]
    · simp only [Bool.not_eq_true] at h
      simp [h, ih]

theorem found_iff_mem (path : String) (l : List String) :
    (find_if (fun item => item == path) l != l.length) = true ↔ path ∈ l := by
  rw [bne_iff_ne, Ne, find_if_eq_length_iff]
  constructor
  · intro h
    by_contra hn
    apply h
    intro item hitem
    simp only [beq_eq_false_iff_ne, ne_eq]
    rintro rfl
    exact hn hitem
  · intro hmem h
    have := h path hmem
    simp at this

theorem provide_file_of_mem (self : FtpServerImpl) (path : String)
    (h : path ∈ self._saved_paths) :
    self.provide_file path = (FtpServer.Result.Duplicate, self) := by
  have hf := (found_iff_mem path self._saved_paths).2 h
  simp only [FtpServerImpl.provide_file, hf, if_true]

theorem provide_file_of_not_mem (self : FtpServerImpl) (path : String)
    (h : path ∉ self._saved_paths) :
    self.provide_file path =
      (FtpServer.Result.Success, ⟨self._saved_paths ++ [path]⟩) := by
  have hf : (find_if (fun item => item == path) self._saved_paths
      != self._saved_paths.length) = false := by
    rw [← Bool.not_eq_true, found_iff_mem]
    exact h
  simp only [FtpServerImpl.provide_file, hf]
  rfl

theorem provide_file_mem_after (self : FtpServerImpl) (path : String) :
    path ∈ (self.provide_file path).2._saved_paths := by
  by_cases h : path ∈ self._saved_paths
  · rw [provide_file_of_mem self path h]; exact h
  · rw [provide_file_of_not_mem self path h]; simp

theorem provide_file_nodup (self : FtpServerImpl) (path : String)
    (h : self._saved_paths.Nodup) : (self.provide_file path).2._saved_paths.Nodup := by
  by_cases hm : path ∈ self._saved_paths
  · rw [provide_file_of_mem self path hm]; exact h
  · rw [provide_file_of_not_mem self path hm]
    exact List.Nodup.append h (List.nodup_singleton path) (by simpa using hm)

theorem provide_files_nodup (paths : List String) :
    ∀ self : FtpServerImpl, self._saved_paths.Nodup →
      (self.provide_files paths).2._saved_paths.Nodup := by
  induction paths with
  | nil => intro self h; exact h
  | cons path rest ih =>
    intro self h
    simp only [FtpServerImpl.provide_files]
    exact ih _ (provide_file_nodup self path h)

theorem provide_files_saved_paths (paths : List String) :
    ∀ self : FtpServerImpl,
      (self.provide_files paths).2._saved_paths =
        self._saved_paths ++
          (first_occurrences paths).filter (fun q => decide (q ∉ self._saved_paths)) := by
  induction paths with
  | nil => intro self; simp [FtpServerImpl.provide_files, first_occurrences]
  | cons path rest ih =>
    intro self
    simp only [FtpServerImpl.provide_files, first_occurrences]
    rw [ih]
    by_cases hm : path ∈ self._saved_paths
    · rw [provide_file_of_mem self path hm]
      simp only [List.filter_cons, hm, not_true_eq_false, decide_False, List.filter_filter]
      congr 1
      apply List.filter_congr
      intro q _
      by_cases hq : q ∈ self._saved_paths
      · simp [hq]
      · have : q ≠ path := fun e => hq (e ▸ hm)
        simp [hq, this]
    · rw [provide_file_of_not_mem self path hm]
      simp only [List.filter_cons, hm, not_false_eq_true, decide_True, if_true,
        List.filter_filter, List.append_assoc, List.singleton_append]
      congr 2
      apply List.filter_congr
      intro q _
      by_cases hq : q ∈ self._saved_paths <;> by_cases hp : q = path <;>
        simp [hq, hp]

theorem provide_files_results_length (paths : List String) :
    ∀ self : FtpServerImpl, (self.provide_files paths).1.length = paths.length := by
  induction paths with
  | nil => intro self; rfl
  | cons path rest ih => intro self; simp [FtpServerImpl.provide_files, ih]

theorem provide_files_count_success (paths : List String) :
    ∀ self : FtpServerImpl,
      (self.provide_files paths).2._saved_paths.length =
        self._saved_paths.length +
          (self.provide_files paths).1.count FtpServer.Result.Success := by
  induction paths with
  | nil => intro self; simp [FtpServerImpl.provide_files]
  | cons path rest ih =>
    intro self
    simp only [FtpServerImpl.provide_files]
    rw [ih]
    by_cases hm : path ∈ self._saved_paths
    · rw [provide_file_of_mem self path hm]
      simp [List.count_cons]
    · rw [provide_file_of_not_mem self path hm]
      simp [List.count_cons]
      omega

theorem mem_first_occurrences (paths : List String) (q : String) :
    q ∈ first_occurrences paths ↔ q ∈ paths := by
  induction paths with
  | nil => simp [first_occurrences]
  | cons p rest ih =>
    simp only [first_occurrences, List.mem_cons, List.mem_filter, ih, bne_iff_ne, ne_eq]
    by_cases h : q = p <;> simp [h]

theorem first_occurrences_nodup (paths : List String) :
    (first_occurrences paths).Nodup := by
  induction paths with
  | nil => simp [first_occurrences]
  | cons p rest ih =>
    simp only [first_occurrences, List.nodup_cons, List.mem_filter, bne_self_eq_false,
      Bool.false_eq_true, and_false, not_false_eq_true, true_and]
    exact ih.filter _

theorem first_occurrences_sublist (paths : List String) :
    (first_occurrences paths).Sublist paths := by
  induction paths with
  | nil => simp [first_occurrences]
  | cons p rest ih =>
    simp only [first_occurrences]
    exact ((List.filter_sublist _).trans ih).cons₂ p

theorem first_occurrences_length (paths : List String) :
    (first_occurrences paths).length = paths.toFinset.card := by
  rw [← List.toFinset_card_of_nodup (first_occurrences_nodup paths)]
  congr 1
  ext q
  simp [mem_first_occurrences]

/-! ## Properties of `are_files_identical` -/

theorem create_temp_file_fill_eq (n : Nat) :
    ∀ (len i : Nat) (data : List Nat), len - i = n →
      create_temp_file_fill len i data =
        data ++ (List.range' i (len - i)).map (fun j => j % 256) := by
  induction n with
  | zero =>
    intro len i data h
    rw [create_temp_file_fill]
    have : ¬ i < len := by omega
    simp [this, h]
  | succ n ih =>
    intro len i data h
    rw [create_temp_file_fill]
    have hlt : i < len := by omega
    simp only [hlt, if_true]
    rw [ih len (i + 1) _ (by omega)]
    have hs : len - i = (len - (i + 1)) + 1 := by omega
    rw [hs, List.range'_succ]
    simp

theorem create_temp_file_fill_zero (len : Nat) :
    create_temp_file_fill len 0 [] = (List.range len).map (fun j => j % 256) := by
  rw [create_temp_file_fill_eq len len 0 [] rfl, List.range_eq_range']
  simp

theorem mem_ancestors_self (p : Path) (h : p ≠ []) : p ∈ ancestors p := by
  induction p with
  | nil => exact absurd rfl h
  | cons c rest ih =>
    by_cases hr : rest = []
    · subst hr; simp [ancestors]
    · simp only [ancestors, List.mem_cons, List.mem_map]
      exact Or.inr ⟨rest, ih hr, rfl⟩

theorem create_directories_walk_keeps (ds : List Path) :
    ∀ (fs fs1 : FileSystem) (d : Path), create_directories_walk fs ds = Except.ok fs1 →
      fs.node d = some Node.directory → fs1.node d = some Node.directory := by
  induction ds with
  | nil =>
    intro fs fs1 d h hd
    simp only [create_directories_walk, Except.ok.injEq] at h
    rw [← h]; exact hd
  | cons a later ih =>
    intro fs fs1 d h hd
    simp only [create_directories_walk] at h
    split at h
    · exact ih fs fs1 d h hd
    · exact absurd h (by simp)
    · split at h
      · refine ih _ fs1 d h ?_
        by_cases hda : d = a <;> simp [hda, hd]
      · exact absurd h (by simp)

theorem create_directories_walk_makes (ds : List Path) :
    ∀ (fs fs1 : FileSystem), create_directories_walk fs ds = Except.ok fs1 →
      ∀ d ∈ ds, fs1.node d = some Node.directory := by
  induction ds with
  | nil => intro fs fs1 _ d hd; simp at hd
  | cons a later ih =>
    intro fs fs1 h d hd
    simp only [create_directories_walk] at h
    rcases List.mem_cons.mp hd with hda | hdl
    · subst hda
      split at h
      · rename_i hnode
        exact create_directories_walk_keeps later fs fs1 d h hnode
      · exact absurd h (by simp)
      · split at h
        · exact create_directories_walk_keeps later _ fs1 d h (by simp)
        · exact absurd h (by simp)
    · split at h
      · exact ih fs fs1 h d hdl
      · exact absurd h (by simp)
      · split at h
        · exact ih _ fs1 h d hdl
        · exact absurd h (by simp)

theorem create_directories_ok (fs fs1 : FileSystem) (p : Path)
    (h : create_directories fs p = Except.ok fs1) :
    p ≠ [] ∧ fs1.node p = some Node.directory := by
  by_cases hp : p = []
  · simp [create_directories, hp] at h
  · simp only [create_directories, hp, if_false] at h
    exact ⟨hp, create_directories_walk_makes (ancestors p) fs fs1 h p (mem_ancestors_self p hp)⟩

theorem ofstream_open_write (fs : FileSystem) (path : Path) (data : List Nat)
    (hw : fs.writable path = true) (hn : fs.node path ≠ some Node.directory)
    (hp : fs.node (parent_path path) = some Node.directory)
    (hspace : data.length ≤ fs.free_space) :
    (((OfStream.mk_open fs path).1.write (OfStream.mk_open fs path).2 data).2).node path =
      some (Node.file data false) := by
  have hopen : OfStream.mk_open fs path =
      (⟨true, path, false⟩,
        { fs with node := fun p => if p = path then some (Node.file [] false) else fs.node p }) := by
    unfold OfStream.mk_open
    cases hnode : fs.node path with
    | none => simp [hw, hp]
    | some n =>
      cases n with
      | directory => exact absurd hnode hn
      | file bytes e => simp [hw]
  rw [hopen]
  simp [OfStream.write, List.take_of_length_le hspace]

/-! ## Properties of the upload model -/

theorem handle_write_file (serve : Ftp.Server → Ftp.Opcode → List String → Ftp.Server × Ftp.Reply)
    (srv : Ftp.Server) (seq id offset : Nat) (data : List Nat) :
    srv.handle serve ⟨seq, id, Ftp.Opcode.WriteFile, offset, [], data⟩ =
      srv.write_file id offset data := rfl

theorem write_file_at_end (srv : Ftp.Server) (target : List String) (written data : List Nat)
    (hs : srv.session = some target) (hf : srv.files target = some written) :
    srv.write_file 1 written.length data =
      ({ srv with files := fun f => if f = target then some (written ++ data) else srv.files f },
        Ftp.Reply.Ack 1) := by
  have hd : written.drop (written.length + data.length) = [] :=
    List.drop_of_length_le (by omega)
  simp [Ftp.Server.write_file, hs, hf, hd]

theorem chunk_count_step (n : Nat) (h : n ≠ 0) :
    (n + 238) / 239 = (n - 239 + 238) / 239 + 1 := by
  omega

theorem write_chunks_spec
    (serve : Ftp.Server → Ftp.Opcode → List String → Ftp.Server × Ftp.Reply)
    (target : List String) (n : Nat) :
    ∀ (remaining written : List Nat) (srv : Ftp.Server) (s : Ftp.Session),
      remaining.length ≤ n → written.length + remaining.length < 2 ^ 32 →
      s.state = Ftp.State.Transferring → s.session_id = 1 →
      srv.session = some target → srv.files target = some written →
      s.offset = written.length → s.bytes_transferred = written.length →
      (Ftp.write_chunks serve srv s remaining).1.files target = some (written ++ remaining) ∧
      (Ftp.write_chunks serve srv s remaining).2.1.state = Ftp.State.Transferring ∧
      (Ftp.write_chunks serve srv s remaining).2.1.bytes_transferred =
        written.length + remaining.length ∧
      (Ftp.write_chunks serve srv s remaining).2.1.total = s.total ∧
      (Ftp.write_chunks serve srv s remaining).2.2 =
        List.replicate ((remaining.length + 238) / 239) FtpServer.Result.Next := by
  induction n using Nat.strong_induction_on with
  | _ n ih =>
    intro remaining written srv s hn hsize hst hid hsess hfile hoff hbytes
    rw [Ftp.write_chunks]
    by_cases hz : remaining.length = 0
    · have hnil : remaining = [] := List.length_eq_zero.mp hz
      simp [hz, hnil, hst, hfile, hbytes]
    · have hcond : ¬ (remaining.length = 0 ∨ s.state ≠ Ftp.State.Transferring) := by
        simp [hz, hst]
      have hchunk : (remaining.take Ftp.max_payload).length ≤ remaining.length := by
        simp [List.length_take]
      have hwrap : (written.length + (remaining.take Ftp.max_payload).length) % 2 ^ 32 =
          written.length + (remaining.take Ftp.max_payload).length :=
        Nat.mod_eq_of_lt (by omega)
      simp only [hcond, if_false, handle_write_file, hid, hoff]
      rw [write_file_at_end srv target written _ hsess hfile]
      have hrec := ih (n - 1) (by omega) (remaining.drop Ftp.max_payload)
        (written ++ remaining.take Ftp.max_payload)
        { srv with files := fun f =>
            if f = target then some (written ++ remaining.take Ftp.max_payload)
            else srv.files f }
        (s.on_reply (remaining.take Ftp.max_payload).length (Ftp.Reply.Ack 1)).1
        (by simp [Ftp.max_payload]; omega)
        (by
          simp only [List.length_append, List.length_take, List.length_drop, Ftp.max_payload]
          omega)
        (by simp [Ftp.Session.on_reply, hst])
        (by simp [Ftp.Session.on_reply, hst, hid])
        hsess (by simp)
        (by simp only [Ftp.Session.on_reply, hst, hoff, hwrap, List.length_append])
        (by simp [Ftp.Session.on_reply, hst, hbytes])
      obtain ⟨h1, h3, h5, h6, h7⟩ := hrec
      refine ⟨?_, h3, ?_, ?_, ?_⟩
      · rw [h1]; simp [List.append_assoc]
      · rw [h5]
        simp only [List.length_append, List.length_take, List.length_drop, Ftp.max_payload]
        omega
      · rw [h6]; simp [Ftp.Session.on_reply, hst]
      · rw [h7]
        simp only [Ftp.Session.on_reply, hst, List.length_drop, Ftp.max_payload,
          List.singleton_append]
        rw [chunk_count_step remaining.length hz, List.replicate_succ]

theorem resolve_file_in_root (srv : Ftp.Server) (root remote_dir : List String)
    (file_name : String) (hroot : srv.root = some root)
    (hname : file_name ≠ ".." ∧ file_name ≠ "." ∧ file_name ≠ "")
    (hremote : ∀ c ∈ remote_dir, c = "" ∨ c = ".") :
    srv.resolve (remote_dir ++ [file_name]) = some (root ++ [file_name]) := by
  have hdots : ".." ∉ remote_dir ++ [file_name] := by
    intro hmem
    rcases List.mem_append.mp hmem with h | h
    · rcases hremote _ h with h' | h' <;> simp at h'
    · simp only [List.mem_singleton] at h
      exact hname.1 h.symm
  have hfilter : remote_dir.filter (fun c => c != "." && c != "") = [] := by
    rw [List.filter_eq_nil_iff]
    intro c hc
    rcases hremote c hc with h | h <;> simp [h]
  simp only [Ftp.Server.resolve, hroot, hdots, if_false, List.filter_append, hfilter,
    List.nil_append]
  simp [List.filter_cons, hname.2.1, hname.2.2]

theorem handle_create_file
    (serve : Ftp.Server → Ftp.Opcode → List String → Ftp.Server × Ftp.Reply)
    (srv : Ftp.Server) (root remote_dir : List String) (file_name : String) (seq : Nat)
    (hroot : srv.root = some root)
    (hname : file_name ≠ ".." ∧ file_name ≠ "." ∧ file_name ≠ "")
    (hremote : ∀ c ∈ remote_dir, c = "" ∨ c = ".") :
    srv.handle serve ⟨seq, 0, Ftp.Opcode.CreateFile, 0, remote_dir ++ [file_name], []⟩ =
      srv.create_file (root ++ [file_name]) := by
  simp only [Ftp.Server.handle, resolve_file_in_root srv root remote_dir file_name hroot
    hname hremote, true_or, if_true]

theorem handle_unresolved
    (serve : Ftp.Server → Ftp.Opcode → List String → Ftp.Server × Ftp.Reply)
    (srv : Ftp.Server) (frame : Ftp.Frame) (hroot : srv.root = none)
    (hop : frame.opcode ∈ [Ftp.Opcode.ListDirectory, Ftp.Opcode.OpenFileRO,
      Ftp.Opcode.OpenFileWO, Ftp.Opcode.CreateFile, Ftp.Opcode.RemoveFile,
      Ftp.Opcode.CreateDirectory, Ftp.Opcode.RemoveDirectory, Ftp.Opcode.Rename,
      Ftp.Opcode.CalcFileCRC32]) :
    srv.handle serve frame = (srv, Ftp.Reply.Nak FtpServer.Result.FileDoesNotExist) := by
  simp only [List.mem_cons, List.mem_singleton, List.not_mem_nil, or_false] at hop
  rcases hop with h | h | h | h | h | h | h | h | h <;>
    simp [Ftp.Server.handle, h, Ftp.Server.resolve, hroot]

theorem upload_of_nak
    (serve : Ftp.Server → Ftp.Opcode → List String → Ftp.Server × Ftp.Reply)
    (srv srv1 : Ftp.Server) (content : List Nat) (file_name : String)
    (remote_dir : List String) (reason : Ftp.Result)
    (h : srv.handle serve ⟨0, 0, Ftp.Opcode.CreateFile, 0, remote_dir ++ [file_name], []⟩ =
      (srv1, Ftp.Reply.Nak reason)) :
    Ftp.upload serve srv content file_name remote_dir = ([reason], srv1) := by
  simp only [Ftp.upload, h]
  rw [Ftp.write_chunks]
  simp [Ftp.Session.on_reply, Ftp.Session.finish_transfer]

theorem on_reply_closing (s : Ftp.Session) (chunk_size : Nat) (reply : Ftp.Reply)
    (h : s.state = Ftp.State.Closing) :
    (s.on_reply chunk_size reply).2 = [FtpServer.Result.Success] := by
  cases reply <;> simp [Ftp.Session.on_reply, h]

/-! ## Properties of the speed-input loop -/

theorem speed_input_loop_q {α : Type} (stof : String → StofResult α)
    (set_speed_to : α → Bool) (later : List String) :
    speed_input_loop stof set_speed_to ("q" :: later) =
      speed_input_loop stof set_speed_to later := by
  simp [speed_input_loop]

theorem speed_input_loop_filter_q {α : Type} (stof : String → StofResult α)
    (set_speed_to : α → Bool) (tokens : List String) :
    speed_input_loop stof set_speed_to tokens =
      speed_input_loop stof set_speed_to (tokens.filter (fun t => t != "q")) := by
  induction tokens with
  | nil => rfl
  | cons input later ih =>
    by_cases hq : input = "q"
    · subst hq
      rw [speed_input_loop_q, ih]
      simp
    · have hf : (input :: later).filter (fun t => t != "q") =
          input :: later.filter (fun t => t != "q") := by simp [hq]
      rw [hf]
      simp only [speed_input_loop, hq, if_false]
      rw [ih]

theorem speed_input_loop_exit {α : Type} (stof : String → StofResult α)
    (set_speed_to : α → Bool) (tokens : List String) :
    (speed_input_loop stof set_speed_to tokens).2 ≠ LoopExit.returned 0 := by
  induction tokens with
  | nil => simp [speed_input_loop]
  | cons input later ih =>
    simp only [speed_input_loop]
    split
    · exact ih
    · split
      · exact ih
      · split
        · split
          · simp
          · exact ih
        · exact ih
        · simp

/-! ## Main results -/

/-- C1: when `p` is not yet registered, two calls of `provide_file(p)` in a row
return `Success` and then `Duplicate`, and `_saved_paths` ends up exactly one
entry longer than before. -/
theorem provide_file_twice (self : FtpServerImpl) (p : String)
    (h : p ∉ self._saved_paths) :
    (self.provide_file p).1 = FtpServer.Result.Success ∧
    ((self.provide_file p).2.provide_file p).1 = FtpServer.Result.Duplicate ∧
    ((self.provide_file p).2.provide_file p).2._saved_paths.length =
      self._saved_paths.length + 1 := by
  have hm := provide_file_mem_after self p
  rw [provide_file_of_mem _ p hm]
  rw [provide_file_of_not_mem self p h]
  simp

theorem provide_file_twice_witness :
    "data.bin" ∉ FtpServerImpl.new._saved_paths ∧
    (FtpServerImpl.new.provide_file "data.bin").1 = FtpServer.Result.Success ∧
    ((FtpServerImpl.new.provide_file "data.bin").2.provide_file "data.bin").1 =
      FtpServer.Result.Duplicate ∧
    ((FtpServerImpl.new.provide_file "data.bin").2.provide_file "data.bin").2._saved_paths.length
      = FtpServerImpl.new._saved_paths.length + 1 :=
  ⟨by simp [FtpServerImpl.new],
    provide_file_twice FtpServerImpl.new "data.bin" (by simp [FtpServerImpl.new])⟩

/-- C2: the registry never holds the same path twice.  After any finite
sequence of `provide_file` calls on a new `FtpServerImpl` the list
`_saved_paths` has no duplicates, so that equal entries sit at equal
positions, and `provide_file` preserves the absence of duplicates from any
state. -/
theorem saved_paths_nodup :
    (∀ paths : List String,
      (FtpServerImpl.new.provide_files paths).2._saved_paths.Nodup) ∧
    (∀ (paths : List String)
        (i j : Fin (FtpServerImpl.new.provide_files paths).2._saved_paths.length),
      (FtpServerImpl.new.provide_files paths).2._saved_paths.get i =
        (FtpServerImpl.new.provide_files paths).2._saved_paths.get j → i = j) ∧
    (∀ (self : FtpServerImpl) (p : String), self._saved_paths.Nodup →
      (self.provide_file p).2._saved_paths.Nodup) := by
  have hnew : ∀ paths : List String,
      (FtpServerImpl.new.provide_files paths).2._saved_paths.Nodup :=
    fun paths => provide_files_nodup paths FtpServerImpl.new (by simp [FtpServerImpl.new])
  refine ⟨hnew, ?_, provide_file_nodup⟩
  intro paths i j hij
  exact List.nodup_iff_injective_get.mp (hnew paths) hij

theorem saved_paths_nodup_witness :
    (FtpServerImpl.new.provide_files ["a", "b", "a"]).2._saved_paths.Nodup ∧
    (FtpServerImpl.mk ["a", "b"])._saved_paths.Nodup ∧
    ((FtpServerImpl.mk ["a", "b"]).provide_file "a").2._saved_paths.Nodup :=
  ⟨saved_paths_nodup.1 ["a", "b", "a"], by decide,
    saved_paths_nodup.2.2 (FtpServerImpl.mk ["a", "b"]) "a" (by decide)⟩

/-- C3: `provide_file(p)` returns `Duplicate` exactly when `p` is already an
element of `_saved_paths`, `Success` exactly when it is not, and never any
other result. -/
theorem provide_file_result (self : FtpServerImpl) (p : String) :
    ((self.provide_file p).1 = FtpServer.Result.Duplicate ↔ p ∈ self._saved_paths) ∧
    ((self.provide_file p).1 = FtpServer.Result.Success ↔ p ∉ self._saved_paths) ∧
    ((self.provide_file p).1 = FtpServer.Result.Duplicate ∨
      (self.provide_file p).1 = FtpServer.Result.Success) := by
  by_cases h : p ∈ self._saved_paths
  · rw [provide_file_of_mem self p h]; simp [h]
  · rw [provide_file_of_not_mem self p h]; simp [h]

/-- C4: registration is idempotent.  The registry after `provide_file(p)`
twice equals the registry after `provide_file(p)` once, and a call that
returns `Duplicate` leaves the state exactly as it was. -/
theorem provide_file_idempotent (self : FtpServerImpl) (p : String) :
    ((self.provide_file p).2.provide_file p).2 = (self.provide_file p).2 ∧
    ((self.provide_file p).1 = FtpServer.Result.Duplicate →
      (self.provide_file p).2 = self) := by
  constructor
  · rw [provide_file_of_mem _ p (provide_file_mem_after self p)]
  · by_cases h : p ∈ self._saved_paths
    · rw [provide_file_of_mem self p h]; simp
    · rw [provide_file_of_not_mem self p h]; simp

theorem provide_file_idempotent_witness :
    ((FtpServerImpl.mk ["a"]).provide_file "a").1 = FtpServer.Result.Duplicate ∧
    ((FtpServerImpl.mk ["a"]).provide_file "a").2 = FtpServerImpl.mk ["a"] :=
  ⟨by decide, (provide_file_idempotent (FtpServerImpl.mk ["a"]) "a").2 (by decide)⟩

/-- C6, as amended: `create_temp_file(path, len)` is left by an exception when
`reserve` cannot provide `len` bytes or `create_directories` fails on the
parent path; otherwise it returns `true`.  The vector it builds has exactly
`len` bytes with byte `i` equal to `i mod 256`, and when the file can be
opened for writing and the device takes `len` bytes, the file at `path`
afterwards holds exactly these bytes. -/
theorem create_temp_file_contents (rt : Runtime) (fs : FileSystem) (path : Path) (len : Nat) :
    (rt.max_size < len →
      create_temp_file rt fs path len = Except.error Exception.length_error) ∧
    (len ≤ rt.max_size → rt.memory < len →
      create_temp_file rt fs path len = Except.error Exception.bad_alloc) ∧
    (len ≤ rt.max_size → len ≤ rt.memory → ∀ e,
      create_directories fs (parent_path path) = Except.error e →
        create_temp_file rt fs path len = Except.error e) ∧
    (len ≤ rt.max_size → len ≤ rt.memory → ∀ fs1,
      create_directories fs (parent_path path) = Except.ok fs1 →
        ∃ fs2, create_temp_file rt fs path len = Except.ok (true, fs2) ∧
          (fs1.writable path = true → fs1.node path ≠ some Node.directory →
            len ≤ fs1.free_space →
              fs2.node path = some (Node.file (create_temp_file_fill len 0 []) false))) ∧
    (create_temp_file_fill len 0 []).length = len ∧
    (∀ i, i < len → (create_temp_file_fill len 0 [])[i]? = some (i % 256)) := by
  have hlen : (create_temp_file_fill len 0 []).length = len := by
    simp [create_temp_file_fill_zero]
  refine ⟨?_, ?_, ?_, ?_, hlen, ?_⟩
  · intro h
    simp [create_temp_file, reserve, h]
  · intro h1 h2
    have : ¬ rt.max_size < len := by omega
    simp [create_temp_file, reserve, this, h2]
  · intro h1 h2 e he
    have hm : ¬ rt.max_size < len := by omega
    have hy : ¬ rt.memory < len := by omega
    simp [create_temp_file, reserve, hm, hy, he]
  · intro h1 h2 fs1 hok
    have hm : ¬ rt.max_size < len := by omega
    have hy : ¬ rt.memory < len := by omega
    refine ⟨((OfStream.mk_open fs1 path).1.write (OfStream.mk_open fs1 path).2
      (create_temp_file_fill len 0 [])).2,
      by simp only [create_temp_file, reserve, hm, hy, if_false, hok], ?_⟩
    intro hw hn hspace
    exact ofstream_open_write fs1 path _ hw hn (create_directories_ok fs fs1 _ hok).2
      (by rw [hlen]; exact hspace)
  · intro i hi
    simp [create_temp_file_fill_zero, List.getElem?_range hi]

theorem create_temp_file_contents_witness :
    50 ≤ rt_sample.max_size ∧ 50 ≤ rt_sample.memory ∧
    create_directories fs_sample (parent_path ["/", "tmp", "to_upload", "data.bin"]) =
      Except.ok fs_sample ∧
    fs_sample.writable ["/", "tmp", "to_upload", "data.bin"] = true ∧
    fs_sample.node ["/", "tmp", "to_upload", "data.bin"] ≠ some Node.directory ∧
    50 ≤ fs_sample.free_space ∧
    ∃ fs2, create_temp_file rt_sample fs_sample ["/", "tmp", "to_upload", "data.bin"] 50 =
        Except.ok (true, fs2) ∧
      fs2.node ["/", "tmp", "to_upload", "data.bin"] = some (Node.file (List.range 50) false) := by
  have hd : create_directories fs_sample (parent_path ["/", "tmp", "to_upload", "data.bin"]) =
      Except.ok fs_sample := rfl
  refine ⟨by decide, by decide, hd, rfl, by decide, by decide, ?_⟩
  obtain ⟨fs2, hres, hfile⟩ :=
    (create_temp_file_contents rt_sample fs_sample ["/", "tmp", "to_upload", "data.bin"] 50).2.2.2.1
      (by decide) (by decide) fs_sample hd
  refine ⟨fs2, hres, ?_⟩
  rw [hfile rfl (by decide) (by decide), create_temp_file_fill_zero]
  decide

/-- C6, refuted as stated: for a bare file name the parent path is empty and
`create_directories` throws, for a length above `max_size()` the call of
`reserve` throws, and on a file system that refuses the write the function
returns `true` although no file was written. -/
theorem create_temp_file_throws :
    create_temp_file rt_sample fs_sample ["data.bin"] 50 =
      Except.error Exception.filesystem_error ∧
    create_temp_file rt_sample fs_sample ["/", "tmp", "to_upload", "data.bin"] (2 ^ 63) =
      Except.error Exception.length_error ∧
    (∃ fs2, create_temp_file rt_sample fs_read_only ["/", "tmp", "to_upload", "fresh.bin"] 50 =
        Except.ok (true, fs2) ∧
      fs2.node ["/", "tmp", "to_upload", "fresh.bin"] = none) := by
  refine ⟨?_, ?_, ?_⟩
  · have hr : reserve rt_sample 50 = Except.ok () := rfl
    simp only [create_temp_file, hr]
    rfl
  · have hr : reserve rt_sample (2 ^ 63) = Except.error Exception.length_error := rfl
    simp only [create_temp_file, hr]
  · have hr : reserve rt_sample 50 = Except.ok () := rfl
    have hd : create_directories fs_read_only
        (parent_path ["/", "tmp", "to_upload", "fresh.bin"]) = Except.ok fs_read_only := rfl
    have ho : OfStream.mk_open fs_read_only ["/", "tmp", "to_upload", "fresh.bin"] =
        (⟨false, ["/", "tmp", "to_upload", "fresh.bin"], false⟩, fs_read_only) := rfl
    refine ⟨fs_read_only, ?_, by decide⟩
    simp only [create_temp_file, hr, hd, ho, OfStream.write]
    rfl

/-- C9: in the speed-input loop the token `"q"` does not exit.  The iteration
that reads `"q"` executes `continue`, so the loop goes on with the tokens that
follow exactly as if `"q"` had not been entered, on every input the loop
behaves as on the input without its `"q"` tokens and never reaches `return 0`,
and on the input `q 5` the speed command for 5 is still sent and `main` has
not returned. -/
theorem speed_input_loop_q_continues :
    (∀ (α : Type) (stof : String → StofResult α) (set_speed_to : α → Bool)
        (later : List String),
      speed_input_loop stof set_speed_to ("q" :: later) =
        speed_input_loop stof set_speed_to later) ∧
    (∀ (α : Type) (stof : String → StofResult α) (set_speed_to : α → Bool)
        (tokens : List String),
      speed_input_loop stof set_speed_to tokens =
        speed_input_loop stof set_speed_to (tokens.filter (fun t => t != "q")) ∧
      (speed_input_loop stof set_speed_to tokens).2 ≠ LoopExit.returned 0) ∧
    speed_input_loop stof_sample (fun _ => true) ["q", "5"] = ([5], LoopExit.in_loop) :=
  ⟨fun _ stof set_speed_to later => speed_input_loop_q stof set_speed_to later,
    fun _ stof set_speed_to tokens =>
      ⟨speed_input_loop_filter_q stof set_speed_to tokens,
        speed_input_loop_exit stof set_speed_to tokens⟩,
    by decide⟩

/-- C10: a sequence of `provide_file` calls on an empty registry leaves in
`_saved_paths` the first occurrence of each path, in first-occurrence order;
the number of `Success` results equals the number of distinct paths; and a
call that returns `Success` appends its path to the unchanged old entries. -/
theorem provide_files_first_occurrences :
    (∀ paths : List String,
      (FtpServerImpl.new.provide_files paths).2._saved_paths = first_occurrences paths ∧
      (FtpServerImpl.new.provide_files paths).1.count FtpServer.Result.Success =
        paths.toFinset.card) ∧
    (∀ (self : FtpServerImpl) (p : String),
      (self.provide_file p).1 = FtpServer.Result.Success →
        (self.provide_file p).2._saved_paths = self._saved_paths ++ [p]) := by
  constructor
  · intro paths
    have hs := provide_files_saved_paths paths FtpServerImpl.new
    have hc := provide_files_count_success paths FtpServerImpl.new
    simp only [FtpServerImpl.new, List.not_mem_nil, not_false_eq_true, decide_True,
      List.filter_true, List.nil_append, List.length_nil, Nat.zero_add] at hs hc ⊢
    refine ⟨hs, ?_⟩
    rw [← hc, hs, first_occurrences_length]
  · intro self p h
    by_cases hm : p ∈ self._saved_paths
    · rw [provide_file_of_mem self p hm] at h; simp at h
    · rw [provide_file_of_not_mem self p hm]

theorem provide_files_first_occurrences_witness :
    (FtpServerImpl.new.provide_files ["b", "a", "b", "c", "a"]).2._saved_paths =
      ["b", "a", "c"] ∧
    ((FtpServerImpl.mk ["b"]).provide_file "a").1 = FtpServer.Result.Success ∧
    ((FtpServerImpl.mk ["b"]).provide_file "a").2._saved_paths = ["b", "a"] :=
  ⟨(provide_files_first_occurrences.1 ["b", "a", "b", "c", "a"]).1.trans (by decide),
    by decide,
    provide_files_first_occurrences.2 (FtpServerImpl.mk ["b"]) "a" (by decide)⟩

/-- C7: unconfigured root.  On a server whose root directory has not been
set, every request that names a path is answered `Nak(FileDoesNotExist)`
and leaves the server as it was, a client operation that is `Opening` ends
`Failed` with `FileDoesNotExist` as its only callback status, and an upload
of any file to any remote directory completes with `FileDoesNotExist`. -/
theorem unconfigured_root_file_does_not_exist
    (serve : Ftp.Server → Ftp.Opcode → List String → Ftp.Server × Ftp.Reply)
    (srv : Ftp.Server) (hroot : srv.root = none) :
    (∀ frame : Ftp.Frame,
      frame.opcode ∈ [Ftp.Opcode.ListDirectory, Ftp.Opcode.OpenFileRO,
        Ftp.Opcode.OpenFileWO, Ftp.Opcode.CreateFile, Ftp.Opcode.RemoveFile,
        Ftp.Opcode.CreateDirectory, Ftp.Opcode.RemoveDirectory, Ftp.Opcode.Rename,
        Ftp.Opcode.CalcFileCRC32] →
      srv.handle serve frame = (srv, Ftp.Reply.Nak FtpServer.Result.FileDoesNotExist) ∧
      ∀ s : Ftp.Session, s.state = Ftp.State.Opening →
        ((s.on_reply 0 (srv.handle serve frame).2).1.state = Ftp.State.Failed ∧
          (s.on_reply 0 (srv.handle serve frame).2).2 =
            [FtpServer.Result.FileDoesNotExist])) ∧
    (∀ (content : List Nat) (file_name : String) (remote_dir : List String),
      Ftp.upload serve srv content file_name remote_dir =
        ([FtpServer.Result.FileDoesNotExist], srv)) := by
  constructor
  · intro frame hop
    have hh := handle_unresolved serve srv frame hroot hop
    refine ⟨hh, ?_⟩
    intro s hs
    rw [hh]
    simp [Ftp.Session.on_reply, hs]
  · intro content file_name remote_dir
    exact upload_of_nak serve srv srv content file_name remote_dir _
      (handle_unresolved serve srv _ hroot (by simp))

theorem unconfigured_root_file_does_not_exist_witness :
    Ftp.server_sample.root = none ∧
    Ftp.upload Ftp.serve_sample Ftp.server_sample (List.range 50) "data.bin" ["."] =
      ([FtpServer.Result.FileDoesNotExist], Ftp.server_sample) :=
  ⟨rfl, (unconfigured_root_file_does_not_exist Ftp.serve_sample Ftp.server_sample rfl).2
    (List.range 50) "data.bin" ["."]⟩

/-- C8, as amended: once the root directory is set to an existing directory
that permits write access, and while no other session is active on the
server, an upload of a file shorter than `2 ^ 32` bytes to the root reports
`Next` once per chunk and then the terminal `Success`, and the file of the
same name under the jail root then holds exactly the bytes of the local
file. -/
theorem upload_after_set_root
    (serve : Ftp.Server → Ftp.Opcode → List String → Ftp.Server × Ftp.Reply)
    (srv : Ftp.Server) (root : List String) (content : List Nat) (file_name : String)
    (remote_dir : List String)
    (hdir : srv.dirs root = true) (hwrite : srv.writable root = true)
    (hsess : srv.session = none) (hsize : content.length < 2 ^ 32)
    (hname : file_name ≠ ".." ∧ file_name ≠ "." ∧ file_name ≠ "")
    (hremote : ∀ c ∈ remote_dir, c = "" ∨ c = ".") :
    (Ftp.upload serve (srv.set_root_directory root) content file_name remote_dir).1 =
      List.replicate ((content.length + 238) / 239) FtpServer.Result.Next ++
        [FtpServer.Result.Success] ∧
    (Ftp.upload serve (srv.set_root_directory root) content file_name remote_dir).2.files
      (root ++ [file_name]) = some content := by
  have hcreate := handle_create_file serve (srv.set_root_directory root) root remote_dir
    file_name 0 rfl hname hremote
  have hcf : (srv.set_root_directory root).create_file (root ++ [file_name]) =
      ({ (srv.set_root_directory root) with
          files := fun f => if f = root ++ [file_name] then some [] else srv.files f
          session := some (root ++ [file_name]) },
        Ftp.Reply.Ack 1) := by
    simp [Ftp.Server.create_file, Ftp.Server.set_root_directory, hsess, hdir, hwrite]
  have hw := write_chunks_spec serve (root ++ [file_name]) content.length content []
    ((srv.set_root_directory root).create_file (root ++ [file_name])).1
    ((⟨Ftp.State.Opening, true, 0, 0, 0, 0, content.length⟩ : Ftp.Session).on_reply 0
      (Ftp.Reply.Ack 1)).1
    (le_refl _) (by simpa using hsize) (by simp [Ftp.Session.on_reply])
    (by simp [Ftp.Session.on_reply])
    (by rw [hcf]) (by rw [hcf]; simp) (by simp [Ftp.Session.on_reply])
    (by simp [Ftp.Session.on_reply])
  obtain ⟨h1, h3, h5, h6, h7⟩ := hw
  have hreply : ((srv.set_root_directory root).create_file (root ++ [file_name])).2 =
      Ftp.Reply.Ack 1 := by rw [hcf]
  simp only [Ftp.upload, hcreate, hreply]
  have hfin : (Ftp.write_chunks serve
      ((srv.set_root_directory root).create_file (root ++ [file_name])).1
      ((⟨Ftp.State.Opening, true, 0, 0, 0, 0, content.length⟩ : Ftp.Session).on_reply 0
        (Ftp.Reply.Ack 1)).1 content).2.1.finish_transfer.state = Ftp.State.Closing := by
    simp only [Ftp.Session.finish_transfer, h3, h5, h6]
    simp [Ftp.Session.on_reply]
  have hopened : ((⟨Ftp.State.Opening, true, 0, 0, 0, 0, content.length⟩ :
      Ftp.Session).on_reply 0 (Ftp.Reply.Ack 1)).2 = [] := rfl
  simp only [hfin, if_true, h7, hopened, on_reply_closing _ _ _ hfin, List.nil_append]
  refine ⟨trivial, ?_⟩
  simp only [Ftp.Server.handle, Ftp.Server.terminate_session, h1, List.nil_append]

theorem upload_after_set_root_witness :
    Ftp.server_sample.dirs ["tmp", "provided"] = true ∧
    Ftp.server_sample.writable ["tmp", "provided"] = true ∧
    Ftp.server_sample.session = none ∧
    (List.range 50).length < 2 ^ 32 ∧
    ("data.bin" ≠ ".." ∧ "data.bin" ≠ "." ∧ "data.bin" ≠ "") ∧
    (∀ c ∈ [""], c = "" ∨ c = ".") ∧
    (Ftp.upload Ftp.serve_sample (Ftp.server_sample.set_root_directory ["tmp", "provided"])
      (List.range 50) "data.bin" [""]).1 =
        [FtpServer.Result.Next, FtpServer.Result.Success] ∧
    (Ftp.upload Ftp.serve_sample (Ftp.server_sample.set_root_directory ["tmp", "provided"])
      (List.range 50) "data.bin" [""]).2.files ["tmp", "provided", "data.bin"] =
        some (List.range 50) :=
  ⟨by decide, rfl, rfl, by decide, by decide, by decide,
    (upload_after_set_root Ftp.serve_sample Ftp.server_sample ["tmp", "provided"]
      (List.range 50) "data.bin" [""] (by decide) rfl rfl (by decide) (by decide)
      (by decide)).1,
    (upload_after_set_root Ftp.serve_sample Ftp.server_sample ["tmp", "provided"]
      (List.range 50) "data.bin" [""] (by decide) rfl rfl (by decide) (by decide)
      (by decide)).2⟩

/-- C8, refuted as stated: with the root set to an existing directory that
permits no write access the upload ends with `FileDoesNotExist`, and with the
root set while another session is active it ends with `Busy`; neither reports
`Success`. -/
theorem upload_after_set_root_rejected :
    (Ftp.server_read_only.set_root_directory ["tmp", "provided"]).dirs ["tmp", "provided"] =
      true ∧
    (Ftp.upload Ftp.serve_sample (Ftp.server_read_only.set_root_directory ["tmp", "provided"])
      (List.range 50) "data.bin" [""]).1 = [FtpServer.Result.FileDoesNotExist] ∧
    (Ftp.server_busy.set_root_directory ["tmp", "provided"]).dirs ["tmp", "provided"] = true ∧
    (Ftp.upload Ftp.serve_sample (Ftp.server_busy.set_root_directory ["tmp", "provided"])
      (List.range 50) "data.bin" [""]).1 = [FtpServer.Result.Busy] ∧
    ¬ ∃ k, (Ftp.upload Ftp.serve_sample
        (Ftp.server_read_only.set_root_directory ["tmp", "provided"])
        (List.range 50) "data.bin" [""]).1 =
          List.replicate k FtpServer.Result.Next ++ [FtpServer.Result.Success] := by
  have h1 : Ftp.upload Ftp.serve_sample
      (Ftp.server_read_only.set_root_directory ["tmp", "provided"])
      (List.range 50) "data.bin" [""] =
        ([FtpServer.Result.FileDoesNotExist],
          Ftp.server_read_only.set_root_directory ["tmp", "provided"]) :=
    upload_of_nak _ _ _ _ _ _ _ rfl
  have h2 : Ftp.upload Ftp.serve_sample
      (Ftp.server_busy.set_root_directory ["tmp", "provided"])
      (List.range 50) "data.bin" [""] =
        ([FtpServer.Result.Busy], Ftp.server_busy.set_root_directory ["tmp", "provided"]) :=
    upload_of_nak _ _ _ _ _ _ _ rfl
  refine ⟨by decide, by rw [h1], by decide, by rw [h2], ?_⟩
  rw [h1]
  rintro ⟨k, hk⟩
  cases k with
  | zero => simp at hk
  | succ k => simp [List.replicate_succ] at hk

end MAVSDK
